import Mathlib

/-!
# Verification of the conmon-rs Go client attach layer

Shallow embedding of `pkg/client/attach.go` (package `client`): the wire-tag
constants, the output demultiplexer `redirectResponseToOutputStreams`, the
session coordinator `readStdio`, the stdin forwarding goroutine launched by
`setupStdioChannels` (whose body is `utils.CopyDetachable` from the
`github.com/containers/podman/v3/utils` dependency), and the close-tracking
structure of `attach`.

Bytes are modelled as `Nat`, Go `error` values as `Option GoError`
(`none` = Go `nil`), and each `conn.Read` as a `ReadEv`: the bytes the read
returned together with the `error` value it returned alongside them.
Sink/transport writers (`io.Writer`) are modelled by their response function:
given the bytes of a write and the index of that write, the `(nw, ew)` pair
the writer returns.
-/

set_option autoImplicit false

namespace ConmonAttach

/-- Wire constants from `attach.go`:
`attachPacketBufSize = 8192`, `attachPipeStdin = 1`,
`attachPipeStdout = 2`, `attachPipeStderr = 3`. -/
def attachPacketBufSize : Nat := 8192

def attachPipeStdin : Nat := 1

def attachPipeStdout : Nat := 2

def attachPipeStderr : Nat := 3

/-- The Go `error` values the attach layer distinguishes:
`io.EOF`, `define.ErrDetach`, `io.ErrShortWrite`, the
`errors.New("output destination cannot be nil")` value produced by the
demultiplexer, and opaque transport/sink errors (indexed by a `Nat`). -/
inductive GoError
  | eof
  | detach
  | shortWrite
  | nilOutputDst
  | other (n : Nat)
  deriving DecidableEq, Repr

/-- One `conn.Read(buf)` result: the bytes returned (`nr = data.length`)
and the `error` value returned with them (`none` = `nil`). -/
structure ReadEv where
  data : List Nat
  er : Option GoError
  deriving DecidableEq, Repr

/-- A writer's behaviour (`io.Writer`): for the bytes of a write and the
index of that write (number of earlier writes to the same writer), the
`(nw, ew)` pair `Write` returns. -/
def WriterResp : Type := List Nat → Nat → Nat × Option GoError

/-- A writer that accepts every write in full with no error. -/
def perfectResp : WriterResp := fun bytes _ => (bytes.length, none)

/-- The demultiplexer's environment, from `AttachConfig`/`AttachStreams`:
the two deliver flags (`cfg.Streams.AttachStdout` / `AttachStderr`),
whether each sink interface (`cfg.Streams.Stdout` / `Stderr`) is Go `nil`,
and each sink's write behaviour. -/
structure DemuxCfg where
  attachStdout : Bool
  attachStderr : Bool
  stdoutNil : Bool
  stderrNil : Bool
  stdoutResp : WriterResp
  stderrResp : WriterResp

/-- Observable demultiplexer state: the argument lists passed to
`Stdout.Write` and `Stderr.Write`, in call order. -/
structure DemuxState where
  stdoutWrites : List (List Nat)
  stderrWrites : List (List Nat)
  deriving DecidableEq, Repr

/-- Result of one iteration of the read loop: terminate the loop returning
the given `error` value, or go around again. -/
inductive StepRes
  | terminate (out : Option GoError)
  | next
  deriving DecidableEq, Repr

/-- One iteration of the `for` loop of `redirectResponseToOutputStreams`
(attach.go:161-199) on one read result `ev`.

If `nr > 0`: switch on `buf[0]` — tag 2 selects `dst := Streams.Stdout`,
`doWrite := AttachStdout`; tag 3 selects `Streams.Stderr` / `AttachStderr`;
any other tag only logs, leaving `dst` nil. A nil `dst` returns the
"output destination cannot be nil" error. If `doWrite`, `dst.Write(buf[1:nr])`
runs: a write error terminates with it; `nr != nw+1` terminates with
`io.ErrShortWrite`. Then `er == io.EOF` breaks cleanly (returning `nil`),
any other non-nil `er` terminates with it, and `nil` continues the loop. -/
def redirectIter (cfg : DemuxCfg) (st : DemuxState) (ev : ReadEv) :
    StepRes × DemuxState :=
  let nr := ev.data.length
  let afterData : Option (Option GoError) × DemuxState :=
    if nr > 0 then
      let tag := ev.data.headD 0
      if tag = attachPipeStdout then
        if cfg.stdoutNil then (some (some GoError.nilOutputDst), st)
        else if cfg.attachStdout then
          let bytes := ev.data.tail
          let (nw, ew) := cfg.stdoutResp bytes st.stdoutWrites.length
          let st' : DemuxState := { st with stdoutWrites := st.stdoutWrites ++ [bytes] }
          match ew with
          | some e => (some (some e), st')
          | none =>
            if nr ≠ nw + 1 then (some (some GoError.shortWrite), st')
            else (none, st')
        else (none, st)
      else if tag = attachPipeStderr then
        if cfg.stderrNil then (some (some GoError.nilOutputDst), st)
        else if cfg.attachStderr then
          let bytes := ev.data.tail
          let (nw, ew) := cfg.stderrResp bytes st.stderrWrites.length
          let st' : DemuxState := { st with stderrWrites := st.stderrWrites ++ [bytes] }
          match ew with
          | some e => (some (some e), st')
          | none =>
            if nr ≠ nw + 1 then (some (some GoError.shortWrite), st')
            else (none, st')
        else (none, st)
      else
        (some (some GoError.nilOutputDst), st)
    else (none, st)
  match afterData with
  | (some out, st') => (StepRes.terminate out, st')
  | (none, st') =>
    match ev.er with
    | some GoError.eof => (StepRes.terminate none, st')
    | some e => (StepRes.terminate (some e), st')
    | none => (StepRes.next, st')

/-- The whole read loop of `redirectResponseToOutputStreams` over a finite
trace of read results. Returns `some out` with the function's returned
`error` value when the loop terminates within the trace, and `none` when
the trace is exhausted with the loop still running (in Go it would block
in the next `conn.Read`). -/
def redirectRun (cfg : DemuxCfg) (st : DemuxState) :
    List ReadEv → Option (Option GoError) × DemuxState
  | [] => (none, st)
  | ev :: rest =>
    match redirectIter cfg st ev with
    | (StepRes.terminate out, st') => (some out, st')
    | (StepRes.next, st') => redirectRun cfg st' rest

/-- Result of the detach-keys scan inside `utils.CopyDetachable`:
the full key sequence matched (`return 0, ErrDetach`), or the loop broke
out leaving `preservBuf`, the current read (`buf[0:nr]`, `er`) and the
unconsumed remainder of the source, or a further `src.Read` would block
beyond the modelled trace. -/
inductive KeyScanRes
  | detach
  | forward (preservBuf data : List Nat) (er : Option GoError) (rest : List ReadEv)
  | blocked
  deriving Repr

/-- The `for i, key := range keys` loop of `utils.CopyDetachable`
(`github.com/containers/podman/v3/utils`, the body of the stdin goroutine
launched by `setupStdioChannels`, attach.go:148-154). Each iteration
appends `buf[0:nr]` to `preservBuf`; it breaks unless the read was exactly
one byte equal to the current key; on the last key it returns
`ErrDetach`; otherwise it issues the next `src.Read`. -/
def keyScan : List Nat → List Nat → List Nat → Option GoError → List ReadEv → KeyScanRes
  | [], preservBuf, data, er, rest => KeyScanRes.forward preservBuf data er rest
  | key :: ks, preservBuf, data, er, rest =>
    let pb := preservBuf ++ data
    if data.length ≠ 1 ∨ data.headD 0 ≠ key then KeyScanRes.forward pb data er rest
    else if ks = [] then KeyScanRes.detach
    else
      match rest with
      | [] => KeyScanRes.blocked
      | ev :: rest' => keyScan ks pb ev.data ev.er rest'

/-- The outer loop of `utils.CopyDetachable(dst, src, keys)` over a finite
trace of `src.Read` results, with `fuel` bounding the number of outer
iterations (a fuel of `src.length + 1` always suffices, since every
iteration consumes at least one read). Accumulates the argument lists
passed to `dst.Write` in call order. Returns `some out` with the returned
`error` value, or `none` when the trace (or fuel) ran out with the copy
still blocked in a read.

Per iteration: read; if `nr > 0`, run the keys loop; write `preservBuf` if
non-empty, else `buf[0:nr]` (with `nr` reassigned to `len(preservBuf)`);
a write error is returned as-is, `nr != nw` returns `io.ErrShortWrite`;
then a non-nil `er` ends the loop, returned as-is unless it is `io.EOF`,
which returns `nil`. -/
def copyDetachable (dstResp : WriterResp) (keys : List Nat) :
    Nat → List ReadEv → List (List Nat) → Option (Option GoError) × List (List Nat)
  | 0, _, writes => (none, writes)
  | _ + 1, [], writes => (none, writes)
  | fuel + 1, ev :: rest, writes =>
    let step : Option (Option GoError) × List (List Nat) × List ReadEv :=
      if ev.data.length > 0 then
        match keyScan keys [] ev.data ev.er rest with
        | KeyScanRes.detach => (some (some GoError.detach), writes, rest)
        | KeyScanRes.blocked => (none, writes, rest)
        | KeyScanRes.forward pb data er rest' =>
          let toWrite := if pb.length > 0 then pb else data
          let (nw, ew) := dstResp toWrite writes.length
          let writes' := writes ++ [toWrite]
          match ew with
          | some e => (some (some e), writes', rest')
          | none =>
            if toWrite.length ≠ nw then (some (some GoError.shortWrite), writes', rest')
            else
              match er with
              | none => (none, writes', rest')
              | some GoError.eof => (some none, writes', rest')
              | some e => (some (some e), writes', rest')
      else
        match ev.er with
        | none => (none, writes, rest)
        | some GoError.eof => (some none, writes, rest)
        | some e => (some (some e), writes, rest)
    match step with
    | (some out, writes', _) => (some out, writes')
    | (none, writes', rest') => copyDetachable dstResp keys fuel rest' writes'

/-- The stdin goroutine body in `setupStdioChannels` (attach.go:148-154):
if `cfg.Streams.AttachStdin`, run `utils.CopyDetachable(conn, Streams.Stdin,
cfg.DetachKeys)` — the destination is the transport `conn` itself — and send
its error on `stdinDone`; otherwise send `nil` having copied nothing. -/
def stdinForward (attachStdin : Bool) (connResp : WriterResp) (keys : List Nat)
    (src : List ReadEv) : Option (Option GoError) × List (List Nat) :=
  if attachStdin then copyDetachable connResp keys (src.length + 1) src []
  else (some none, [])

/-- Which of the two completion channels the `select` in `readStdio`
(attach.go:205-231) picked first, with the `error` value received. -/
inductive SelectCase
  | outputDone (e : Option GoError)
  | stdinDone (e : Option GoError)
  deriving DecidableEq, Repr

/-- Observable outcome of `readStdio`: the returned `error` value, whether
`conn.CloseWrite()` was invoked, and whether the coordinator blocked on
`<-receiveStdoutError` after the stdin case was selected. -/
structure ReadStdioResult where
  outcome : Option GoError
  closedWrite : Bool
  waitedForOutput : Bool
  deriving DecidableEq, Repr

/-- `readStdio` (attach.go:203-233). `first` is the `select` winner;
`outputResult` is what a subsequent `<-receiveStdoutError` would deliver.

Output case: `conn.CloseWrite()` then return the received error.
Stdin case: if `cfg.StopAfterStdinEOF`, return `nil` at once; if the error
is `define.ErrDetach`, `CloseWrite` and return it; if the error is `nil`,
`CloseWrite` (failure only logged); then, if `AttachStdout || AttachStderr`,
return `<-receiveStdoutError`, else fall through to `return nil`. -/
def readStdio (stopAfterStdinEOF attachStdout attachStderr : Bool)
    (first : SelectCase) (outputResult : Option GoError) : ReadStdioResult :=
  match first with
  | SelectCase.outputDone e =>
    { outcome := e, closedWrite := true, waitedForOutput := false }
  | SelectCase.stdinDone e =>
    if stopAfterStdinEOF then
      { outcome := none, closedWrite := false, waitedForOutput := false }
    else if e = some GoError.detach then
      { outcome := some GoError.detach, closedWrite := true, waitedForOutput := false }
    else
      let closed := e = none
      if attachStdout || attachStderr then
        { outcome := outputResult, closedWrite := closed, waitedForOutput := true }
      else
        { outcome := none, closedWrite := closed, waitedForOutput := false }

/-- Observable outcome of `attach`: the returned `error` value and whether
the deferred `conn.Close()` ran before the return. -/
structure AttachResult where
  outcome : Option GoError
  connClosed : Bool
  deriving DecidableEq, Repr

/-- `attach` (attach.go:93-140), with each collaborator abstracted by its
`error` outcome: `dial` is what `DialLongSocket` returned (`none` =
success), `pre` and `post` the pre- and post-attach hook results (`none` for a nil
or succeeding hook, `some e` for a failing one), `stdio` what `readStdio`
returned.

Non-passthrough: dial; on failure return the wrapped error with no
connection to close; on success register `defer conn.Close()` (its own
failure only logged), so every later return closes the connection. Then
the pre-attach hook (failure returned), the passthrough early return,
`setupStdioChannels`, the post-attach hook (failure returned), and
`readStdio`'s result. Passthrough skips the dial block entirely, so no
transport exists to close. -/
def attach (passthrough : Bool) (dial pre post stdio : Option GoError) :
    AttachResult :=
  if passthrough then
    match pre with
    | some e => { outcome := some e, connClosed := false }
    | none => { outcome := none, connClosed := false }
  else
    match dial with
    | some e => { outcome := some e, connClosed := false }
    | none =>
      match pre with
      | some e => { outcome := some e, connClosed := true }
      | none =>
        match post with
        | some e => { outcome := some e, connClosed := true }
        | none => { outcome := stdio, connClosed := true }

/-- Sinks present and perfect, both deliver flags set. -/
def perfectCfg : DemuxCfg :=
  { attachStdout := true, attachStderr := true, stdoutNil := false,
    stderrNil := false, stdoutResp := perfectResp, stderrResp := perfectResp }

/-- Both sink interfaces Go `nil`, neither deliver flag set for stdout. -/
def nilSinkCfg : DemuxCfg :=
  { attachStdout := false, attachStderr := true, stdoutNil := true,
    stderrNil := true, stdoutResp := perfectResp, stderrResp := perfectResp }

/-- A stdout sink that accepts 0 bytes of every write without error. -/
def shortCfg : DemuxCfg :=
  { attachStdout := true, attachStderr := true, stdoutNil := false,
    stderrNil := false, stdoutResp := fun _ _ => (0, none),
    stderrResp := perfectResp }

/-- `AttachStdout=false, AttachStderr=true`, both sinks present and
perfect: the discard-while-draining configuration. -/
def drainCfg : DemuxCfg :=
  { attachStdout := false, attachStderr := true, stdoutNil := false,
    stderrNil := false, stdoutResp := perfectResp, stderrResp := perfectResp }

/-- The payloads (bytes after the tag byte) of the STDERR-tagged chunks of
a read trace, in arrival order. -/
def stderrPayloads (evs : List ReadEv) : List (List Nat) :=
  evs.filterMap fun ev =>
    if ev.data.headD 0 = attachPipeStderr then some ev.data.tail else none

/-- A local stdin source delivering the given chunks, one per read, with
no read error. -/
def chunksToEvents (chunks : List (List Nat)) : List ReadEv :=
  chunks.map fun c => { data := c, er := none }

/-! ## Theorems -/

/-- **C4** (confirmed): with `StopAfterStdinEOF` set, when the `select`
picks the stdin channel first, `readStdio` returns `nil` at once, whatever
the stdin task's error value, without blocking on `receiveStdoutError`
(and without a half-close). -/
theorem C4_stop_after_stdin_eof_returns_clean (so se : Bool)
    (e outputResult : Option GoError) :
    readStdio true so se (SelectCase.stdinDone e) outputResult =
      { outcome := none, closedWrite := false, waitedForOutput := false } := rfl

/-- **C5** (confirmed): without `StopAfterStdinEOF`, a stdin completion
carrying `define.ErrDetach` makes `readStdio` call `conn.CloseWrite()` and
return the detach sentinel immediately, without blocking on the output
demultiplexer's channel. -/
theorem C5_detach_half_close_and_return (so se : Bool)
    (outputResult : Option GoError) :
    readStdio false so se (SelectCase.stdinDone (some GoError.detach)) outputResult =
      { outcome := some GoError.detach, closedWrite := true,
        waitedForOutput := false } := by
  simp [readStdio]

/-- **C3** (confirmed): without `StopAfterStdinEOF`, a stdin completion
with `nil` error makes `readStdio` half-close the write direction; then,
if `AttachStdout || AttachStderr`, it blocks on and returns the output
demultiplexer's eventual result, and otherwise returns `nil` without
consulting that result. -/
theorem C3_clean_stdin_eof_behaviour (so se : Bool) (outputResult : Option GoError) :
    readStdio false so se (SelectCase.stdinDone none) outputResult =
      { outcome := if so || se then outputResult else none,
        closedWrite := true, waitedForOutput := so || se } := by
  cases so <;> cases se <;> simp [readStdio]

/-- **C1** (counterexample): the claim says a non-nil, non-detach stdin
error leads to a half-close and that error being returned. At
`StopAfterStdinEOF=false`, `AttachStdout=AttachStderr=false`, stdin
completing first with the opaque error `other 0`: no `CloseWrite` happens
and the returned error is `nil`, not the stdin error. -/
theorem C1_counterexample :
    GoError.other 0 ≠ GoError.detach ∧
    ¬ (let r := readStdio false false false
          (SelectCase.stdinDone (some (GoError.other 0))) none
       r.closedWrite = true ∧ r.outcome = some (GoError.other 0)) := by
  decide

/-- **C1** (amended): when the stdin task completes first with a non-nil,
non-detach error (and `StopAfterStdinEOF` is unset), `readStdio` does
*not* half-close the write direction and discards the stdin error: it
returns the output demultiplexer's result when `AttachStdout ||
AttachStderr` is set and `nil` otherwise. -/
theorem C1_amended_stdin_error_dropped (so se : Bool) (outputResult : Option GoError)
    (e : GoError) (hne : e ≠ GoError.detach) :
    readStdio false so se (SelectCase.stdinDone (some e)) outputResult =
      { outcome := if so || se then outputResult else none,
        closedWrite := false, waitedForOutput := so || se } := by
  cases so <;> cases se <;> simp [readStdio, hne]

/-- Witness for C1's amended theorem at `e = other 0`, both flags unset. -/
theorem C1_amended_stdin_error_dropped_witness :
    readStdio false false false (SelectCase.stdinDone (some (GoError.other 0))) none =
      { outcome := if false || false then none else none,
        closedWrite := false, waitedForOutput := false || false } :=
  C1_amended_stdin_error_dropped false false none (GoError.other 0) (by decide)

/-- **C9** (confirmed): for a non-passthrough session whose attach-socket
dial succeeded, `attach` reports the deferred `conn.Close()` as run on
every exit path: pre-attach hook failure, post-attach hook failure, and
every `readStdio` outcome. -/
theorem C9_transport_closed_on_every_path (pre post stdio : Option GoError) :
    (attach false none pre post stdio).connClosed = true := by
  cases pre <;> cases post <;> rfl

/-- **C6** (confirmed): a non-empty chunk whose tag byte is neither
STDOUT (2) nor STDERR (3) — STDIN (1) included — makes the demultiplexer
terminate with an error (the `dst == nil` check fires after the logging
`default` branch), never continue the loop. -/
theorem C6_unroutable_tag_terminates (cfg : DemuxCfg) (st : DemuxState) (ev : ReadEv)
    (hne : ev.data ≠ []) (h2 : ev.data.headD 0 ≠ attachPipeStdout)
    (h3 : ev.data.headD 0 ≠ attachPipeStderr) :
    (redirectIter cfg st ev).1 = StepRes.terminate (some GoError.nilOutputDst) := by
  have hlen : 0 < ev.data.length := List.length_pos.mpr hne
  simp only [List.headD_eq_head?_getD] at h2 h3
  simp [redirectIter, hlen, h2, h3]

/-- Witness for C6 at a stdin-tagged chunk `[1, 65]`. -/
theorem C6_unroutable_tag_terminates_witness :
    (redirectIter perfectCfg { stdoutWrites := [], stderrWrites := [] }
        { data := [1, 65], er := none }).1 =
      StepRes.terminate (some GoError.nilOutputDst) :=
  C6_unroutable_tag_terminates perfectCfg { stdoutWrites := [], stderrWrites := [] }
    { data := [1, 65], er := none } (by decide) (by decide) (by decide)

/-- **C10** (confirmed): a STDOUT- or STDERR-tagged chunk whose
corresponding sink interface is Go `nil` terminates the demultiplexer
with the "output destination cannot be nil" error, for any value of the
corresponding deliver flag (in particular when it is `false`). -/
theorem C10_nil_sink_terminates (cfg : DemuxCfg) (st : DemuxState) (ev : ReadEv)
    (hne : ev.data ≠ [])
    (h : (ev.data.headD 0 = attachPipeStdout ∧ cfg.stdoutNil = true) ∨
         (ev.data.headD 0 = attachPipeStderr ∧ cfg.stderrNil = true)) :
    (redirectIter cfg st ev).1 = StepRes.terminate (some GoError.nilOutputDst) := by
  have hlen : 0 < ev.data.length := List.length_pos.mpr hne
  simp only [List.headD_eq_head?_getD] at h
  rcases h with ⟨htag, hnil⟩ | ⟨htag, hnil⟩ <;>
    simp [redirectIter, hlen, htag, hnil, attachPipeStdout, attachPipeStderr]

/-- Witness for C10: a STDOUT chunk with `Streams.Stdout = nil` and
`AttachStdout = false`. -/
theorem C10_nil_sink_terminates_witness :
    (redirectIter nilSinkCfg { stdoutWrites := [], stderrWrites := [] }
        { data := [2, 65], er := none }).1 =
      StepRes.terminate (some GoError.nilOutputDst) :=
  C10_nil_sink_terminates nilSinkCfg { stdoutWrites := [], stderrWrites := [] }
    { data := [2, 65], er := none } (by decide) (Or.inl ⟨by decide, rfl⟩)

/-- **C8** (confirmed): for a delivered chunk of `n` read bytes (tag
routable, sink present, deliver flag set, read error `nil`) whose sink
write returned `(nw, ew)` with `nw ≤ n - 1` (a writer never reports more
than it was given) and `ew` not itself the short-write sentinel, the
demultiplexer terminates with `io.ErrShortWrite` exactly when the write
returned no error but accepted fewer than `n - 1` bytes. -/
theorem C8_short_write_iff (cfg : DemuxCfg) (st : DemuxState) (ev : ReadEv)
    (nw : Nat) (ew : Option GoError)
    (hne : ev.data ≠ []) (her : ev.er = none)
    (htag : (ev.data.headD 0 = attachPipeStdout ∧ cfg.stdoutNil = false ∧
             cfg.attachStdout = true ∧
             cfg.stdoutResp ev.data.tail st.stdoutWrites.length = (nw, ew)) ∨
            (ev.data.headD 0 = attachPipeStderr ∧ cfg.stderrNil = false ∧
             cfg.attachStderr = true ∧
             cfg.stderrResp ev.data.tail st.stderrWrites.length = (nw, ew)))
    (hnw : nw ≤ ev.data.length - 1) (hew : ew ≠ some GoError.shortWrite) :
    (redirectIter cfg st ev).1 = StepRes.terminate (some GoError.shortWrite) ↔
      ew = none ∧ nw < ev.data.length - 1 := by
  have hlen : 0 < ev.data.length := List.length_pos.mpr hne
  have harith : (¬ ev.data.length = nw + 1) ↔ nw < ev.data.length - 1 := by omega
  simp only [List.headD_eq_head?_getD] at htag
  rcases htag with ⟨htag, hnil, hdo, hresp⟩ | ⟨htag, hnil, hdo, hresp⟩ <;>
    cases ew <;>
    simp_all [redirectIter, attachPipeStdout, attachPipeStderr] <;>
    split_ifs <;> simp_all

/-- Witness for C8: a STDOUT chunk of 3 bytes whose sink accepts 0 bytes
without error → `io.ErrShortWrite`. -/
theorem C8_short_write_iff_witness :
    (redirectIter shortCfg { stdoutWrites := [], stderrWrites := [] }
        { data := [2, 65, 66], er := none }).1 =
      StepRes.terminate (some GoError.shortWrite) :=
  (C8_short_write_iff shortCfg { stdoutWrites := [], stderrWrites := [] }
      { data := [2, 65, 66], er := none } 0 none (by decide) rfl
      (Or.inl ⟨by decide, rfl, rfl, rfl⟩) (by decide) (by decide)).mpr
    ⟨rfl, by decide⟩

/-- Helper for C7: under `drainCfg` (deliver stdout off, deliver stderr
on, both sinks present and perfect), a trace of routable chunks followed
by EOF runs to clean termination, writing nothing to stdout and appending
exactly the STDERR payloads, in order, to stderr. General in the starting
state for the induction. -/
theorem redirectRun_drain (evs : List ReadEv) :
    ∀ st : DemuxState,
      (∀ ev ∈ evs, ev.data ≠ [] ∧ ev.er = none ∧
        (ev.data.headD 0 = attachPipeStdout ∨ ev.data.headD 0 = attachPipeStderr)) →
      redirectRun drainCfg st (evs ++ [{ data := [], er := some GoError.eof }]) =
        (some none,
          { stdoutWrites := st.stdoutWrites,
            stderrWrites := st.stderrWrites ++ stderrPayloads evs }) := by
  induction evs with
  | nil =>
    intro st h
    simp [redirectRun, redirectIter, stderrPayloads]
  | cons ev evs ih =>
    intro st h
    obtain ⟨hne, her, htag⟩ := h ev (by simp)
    have hrest : ∀ e ∈ evs, e.data ≠ [] ∧ e.er = none ∧
        (e.data.headD 0 = attachPipeStdout ∨ e.data.headD 0 = attachPipeStderr) :=
      fun e he => h e (List.mem_cons_of_mem _ he)
    have hlen : 0 < ev.data.length := List.length_pos.mpr hne
    have hlen' : ev.data.length = ev.data.length - 1 + 1 := by omega
    simp only [List.headD_eq_head?_getD] at htag
    rcases htag with htag | htag
    · have hpl : stderrPayloads (ev :: evs) = stderrPayloads evs := by
        simp [stderrPayloads, List.headD_eq_head?_getD, htag,
          attachPipeStdout, attachPipeStderr]
      have hstep : redirectIter drainCfg st ev = (StepRes.next, st) := by
        simp [redirectIter, hlen, htag, her, drainCfg,
          attachPipeStdout, attachPipeStderr]
      rw [List.cons_append, redirectRun, hstep, hpl]
      exact ih st hrest
    · have hpl : stderrPayloads (ev :: evs) = ev.data.tail :: stderrPayloads evs := by
        simp [stderrPayloads, List.headD_eq_head?_getD, htag]
      have hstep : redirectIter drainCfg st ev =
          (StepRes.next,
            { stdoutWrites := st.stdoutWrites,
              stderrWrites := st.stderrWrites ++ [ev.data.tail] }) := by
        simp [redirectIter, hlen, htag, her, drainCfg, perfectResp,
          attachPipeStdout, attachPipeStderr]
        rw [if_pos hlen']
      rw [List.cons_append, redirectRun, hstep, hpl]
      have hih := ih
        { stdoutWrites := st.stdoutWrites,
          stderrWrites := st.stderrWrites ++ [ev.data.tail] } hrest
      exact hih.trans (by simp)

/-- **C7** (confirmed): with `AttachStdout=false`, `AttachStderr=true` and
both sinks present, a trace of routable chunks followed by transport EOF
is fully processed: STDOUT-tagged chunks are read and discarded (the loop
continues, nothing reaches the stdout sink), every STDERR-tagged chunk's
payload (bytes after the tag byte) is written to the stderr sink
unmodified and in arrival order, and the run ends cleanly. -/
theorem C7_drain_discard_and_deliver (evs : List ReadEv)
    (h : ∀ ev ∈ evs, ev.data ≠ [] ∧ ev.er = none ∧
        (ev.data.headD 0 = attachPipeStdout ∨ ev.data.headD 0 = attachPipeStderr)) :
    redirectRun drainCfg { stdoutWrites := [], stderrWrites := [] }
        (evs ++ [{ data := [], er := some GoError.eof }]) =
      (some none, { stdoutWrites := [], stderrWrites := stderrPayloads evs }) := by
  have hrun := redirectRun_drain evs { stdoutWrites := [], stderrWrites := [] } h
  simpa using hrun

/-- Witness for C7: two stdout chunks interleaved with two stderr chunks;
the stderr sink ends with exactly the stderr payloads, in order. -/
theorem C7_drain_discard_and_deliver_witness :
    redirectRun drainCfg { stdoutWrites := [], stderrWrites := [] }
        ([{ data := [2, 65], er := none }, { data := [3, 66, 67], er := none },
          { data := [2, 68], er := none }, { data := [3, 69], er := none }] ++
         [{ data := [], er := some GoError.eof }]) =
      (some none, { stdoutWrites := [], stderrWrites := [[66, 67], [69]] }) :=
  (C7_drain_discard_and_deliver
      [{ data := [2, 65], er := none }, { data := [3, 66, 67], er := none },
       { data := [2, 68], er := none }, { data := [3, 69], er := none }]
      (by decide)).trans (by decide)

/-- **C2** (counterexample): the claim says every stdin chunk reaching the
transport is STDIN-tag framed (`[1] ++ payload`). Forwarding the single
chunk `[65]` (detach keys empty, stdin attached) writes exactly `[65]` to
the transport: the written chunk's first byte is `65`, not the STDIN tag. -/
theorem C2_counterexample :
    stdinForward true perfectResp [] [{ data := [65], er := some GoError.eof }] =
      (some none, [[65]]) ∧
    ∀ w ∈ [[65]], (w : List Nat).headD 0 ≠ attachPipeStdin := by
  decide

/-- Helper for C2's amended claim: `utils.CopyDetachable` with an empty
detach-key sequence and a transport accepting every write forwards each
non-empty chunk read from the local source to the transport verbatim. -/
theorem copyDetachable_raw (chunks : List (List Nat)) :
    ∀ (fuel : Nat) (writes : List (List Nat)),
      chunks.length + 1 ≤ fuel →
      (∀ c ∈ chunks, c ≠ []) →
      copyDetachable perfectResp [] fuel
          (chunksToEvents chunks ++ [{ data := [], er := some GoError.eof }]) writes =
        (some none, writes ++ chunks) := by
  induction chunks with
  | nil =>
    intro fuel writes hfuel h
    match fuel, hfuel with
    | fuel + 1, _ => simp [chunksToEvents, copyDetachable]
  | cons c cs ih =>
    intro fuel writes hfuel h
    match fuel, hfuel with
    | fuel + 1, hfuel =>
      have hc : c ≠ [] := h c (by simp)
      have hlen : 0 < c.length := List.length_pos.mpr hc
      have hrest : ∀ c' ∈ cs, c' ≠ [] := fun c' hc' => h c' (List.mem_cons_of_mem _ hc')
      have hstep : copyDetachable perfectResp [] (fuel + 1)
          (({ data := c, er := none } : ReadEv) ::
            (chunksToEvents cs ++ [{ data := [], er := some GoError.eof }])) writes =
          copyDetachable perfectResp [] fuel
            (chunksToEvents cs ++ [{ data := [], er := some GoError.eof }])
            (writes ++ [c]) := by
        simp [copyDetachable, keyScan, perfectResp, hlen]
      have hev : chunksToEvents (c :: cs) ++ [({ data := [], er := some GoError.eof } : ReadEv)] =
          ({ data := c, er := none } : ReadEv) ::
            (chunksToEvents cs ++ [{ data := [], er := some GoError.eof }]) := by
        simp [chunksToEvents]
      rw [hev, hstep, ih fuel (writes ++ [c]) (by simp at hfuel; omega) hrest]
      simp

/-- **C2** (amended): the stdin-forwarding path writes each chunk read
from the local source (after detach scanning; here with detach disabled)
to the transport raw and unmodified — no STDIN tag byte is prepended and
no 8192-byte framing is applied (`attachPipeStdin` is declared in
attach.go but never used; `utils.CopyDetachable` copies bytes verbatim). -/
theorem C2_amended_stdin_raw_untagged (chunks : List (List Nat))
    (h : ∀ c ∈ chunks, c ≠ []) :
    stdinForward true perfectResp []
        (chunksToEvents chunks ++ [{ data := [], er := some GoError.eof }]) =
      (some none, chunks) := by
  have hcall := copyDetachable_raw chunks
      ((chunksToEvents chunks ++
        [({ data := [], er := some GoError.eof } : ReadEv)]).length + 1) []
      (by simp [chunksToEvents]) h
  simpa [stdinForward] using hcall

/-- Witness for C2's amended theorem: two chunks forwarded verbatim. -/
theorem C2_amended_stdin_raw_untagged_witness :
    stdinForward true perfectResp []
        (chunksToEvents [[65], [66, 67]] ++ [{ data := [], er := some GoError.eof }]) =
      (some none, [[65], [66, 67]]) :=
  C2_amended_stdin_raw_untagged [[65], [66, 67]] (by decide)

end ConmonAttach
